import Mathlib

/-!
Verification of the lychee-ai-organizer generation-and-orchestration pipeline.

This file gives a shallow embedding, in Lean 4, of the parts of the Go source
relevant to the stated properties:

* `internal/ollama/client.go` — inference client retry loop, `<think>`-tag
  scrubbing, movie-file skipping, album-description synthesis with date-range
  suffix, hierarchical compaction, album-suggestion validation;
* `internal/database/database.go` — the candidate-pool queries;
* `internal/cache/cache.go` — the suggestion cache lookup;
* `internal/api/api.go` — the `/api/photos/suggestions` handler;
* `internal/websocket/websocket.go` — the four batch-job handlers and their
  progress / complete / error event streams.

External effects (the Ollama HTTP service, the SQL connection, the image
fetcher, the websocket connection) are modelled as explicit oracle parameters
(`Except`-valued functions); machine strings are Lean `String` or `List Char`
(text scanned character by character).  `time.Time` values only ever reach the
properties below through `Format("2006-01-02")`, so dates are modelled as their
formatted `YYYY-MM-DD` strings.
-/

namespace Lychee

/-- Photo record (`internal/database/models.go`, `Photo`).  Only the fields the
verified operations read are modelled; `createdAt` and `takenAt` carry the
`YYYY-MM-DD`-formatted dates (`takenAt = none` models `sql.NullTime` invalid),
`aiDescription = none` models a NULL `_ai_description`, and `typ` is the Go
`Type` field. -/
structure Photo where
  id : String
  title : String
  createdAt : String
  takenAt : Option String
  typ : String
  aiDescription : Option String
deriving Repr, DecidableEq

/-- Album record (`internal/database/models.go`, `Album`).  `parentId = none`
models the SQL condition `a.parent_id IS NULL OR a.id IS NULL` (top-level). -/
structure Album where
  id : String
  title : String
  parentId : Option String
  aiDescription : Option String
deriving Repr, DecidableEq

/-- Size variant record (`internal/database/models.go`, `SizeVariant`). -/
structure SizeVariant where
  photoId : String
  typ : Nat
  shortPath : String
deriving Repr, DecidableEq

/-- `maxDescriptionsBeforeCompaction` constant, `internal/ollama/client.go:26`. -/
def maxDescriptionsBeforeCompaction : Nat := 30

/-- `retryAttempts` constant, `internal/ollama/client.go:28`. -/
def retryAttempts : Nat := 3

/-! ## `<think>`-tag scrubbing (`removeThinkTags`, client.go:372-385)

The Go implementation applies two regex rewrites and a trim:
`(?s)<think>.*?</think>` (non-greedy, leftmost-first) replaced by the empty
string, then `<think>.*` (with `.` not matching a newline) replaced by the
empty string, then `strings.TrimSpace`.  The scanners below implement exactly
those replacement semantics on `List Char`. -/

/-- The literal `"<think>"` as a character list. -/
def openTag : List Char := "<think>".toList

/-- The literal `"</think>"` as a character list. -/
def closeTag : List Char := "</think>".toList

/-- Whether `"</think>"` occurs anywhere in the list: a position of the first
regex pass can only match if a closing delimiter occurs later. -/
def containsClose : List Char → Bool
  | '<' :: '/' :: 't' :: 'h' :: 'i' :: 'n' :: 'k' :: '>' :: _ => true
  | _ :: cs => containsClose cs
  | [] => false

mutual

/-- First pass of `removeThinkTags`: delete every (non-greedy, leftmost-first)
`<think>...</think>` block, as `regexp.ReplaceAllString` with pattern
`(?s)<think>.*?</think>` does.  When an opening tag has no closing tag
anywhere after it, no further match of this pass exists (a match needs a
closing delimiter, and a closing delimiter cannot straddle the consumed
opening tag), so the remainder is emitted unchanged. -/
def stripBlocks : List Char → List Char
  | '<' :: 't' :: 'h' :: 'i' :: 'n' :: 'k' :: '>' :: rest =>
    if containsClose rest then skipToClose rest
    else '<' :: 't' :: 'h' :: 'i' :: 'n' :: 'k' :: '>' :: rest
  | c :: cs => c :: stripBlocks cs
  | [] => []

/-- Inside a matched block: drop characters up to and through the first
`</think>`, then resume the first-pass scan. -/
def skipToClose : List Char → List Char
  | '<' :: '/' :: 't' :: 'h' :: 'i' :: 'n' :: 'k' :: '>' :: rest => stripBlocks rest
  | _ :: cs => skipToClose cs
  | [] => []

end

mutual

/-- Second pass of `removeThinkTags`: delete every remaining `<think>` together
with the rest of its line, as `regexp.ReplaceAllString` with pattern
`<think>.*` does (`.` does not match `\n`, and the `\n` itself is kept). -/
def stripOpenTail : List Char → List Char
  | '<' :: 't' :: 'h' :: 'i' :: 'n' :: 'k' :: '>' :: rest => skipLine rest
  | c :: cs => c :: stripOpenTail cs
  | [] => []

/-- After an unterminated `<think>`: discard characters up to the next newline
(the newline survives and scanning resumes from it). -/
def skipLine : List Char → List Char
  | '\n' :: cs => '\n' :: stripOpenTail cs
  | _ :: cs => skipLine cs
  | [] => []

end

/-- `strings.TrimSpace`: drop whitespace from both ends. -/
def trimChars (l : List Char) : List Char :=
  ((l.dropWhile Char.isWhitespace).reverse.dropWhile Char.isWhitespace).reverse

/-- `removeThinkTags` (client.go:372-385): both regex passes, then the final
`strings.TrimSpace`. -/
def removeThinkTags (text : List Char) : List Char :=
  trimChars (stripOpenTail (stripBlocks text))

/-! ## Retry loop (`generateWithRetry`, client.go:150-170)

`retry.Do` runs the attempt closure up to `retryAttempts` times, resetting the
response buffer before each attempt, and returns the last error on exhaustion.
An attempt is an oracle from the 0-based attempt index to either a transient
failure or the raw completion text. -/

/-- One run of `retry.Do`: `remaining` attempts are left and `made` attempts
were already made.  Returns the total number of attempts made together with
the outcome.  (The inter-attempt backoff delays only affect timing, not the
returned value.) -/
def retryDo (oracle : Nat → Except String (List Char)) :
    Nat → Nat → Nat × Except String (List Char)
  | 0, made => (made, Except.error "retry budget is zero")
  | remaining + 1, made =>
    match oracle made with
    | Except.ok text => (made + 1, Except.ok text)
    | Except.error e =>
      match remaining with
      | 0 => (made + 1, Except.error e)
      | _ + 1 => retryDo oracle remaining (made + 1)

/-- `generateWithRetry` (client.go:150-170): up to `retryAttempts` attempts,
and on success the concatenated response text is `strings.TrimSpace`d.
Returns the attempt count alongside the result. -/
def generateWithRetry (oracle : Nat → Except String (List Char)) :
    Nat × Except String (List Char) :=
  let r := retryDo oracle retryAttempts 0
  (r.1, r.2.map trimChars)

/-! ## Movie-file detection and photo description (client.go:59-114, 427-454) -/

/-- `movieExtensions` list (client.go:430-433). -/
def movieExtensions : List (List Char) :=
  [".mp4".toList, ".m4v".toList, ".mov".toList, ".avi".toList, ".mkv".toList,
   ".wmv".toList, ".flv".toList, ".webm".toList, ".ogv".toList, ".3gp".toList,
   ".m2v".toList, ".mpg".toList, ".mpeg".toList, ".mts".toList, ".m2ts".toList]

/-- `strings.TrimPrefix(ext, ".")`: drop a leading dot when present. -/
def trimLeadingDot (ext : List Char) : List Char :=
  match ext with
  | '.' :: rest => rest
  | other => other

/-- Helper for `filepath.Ext`: scan the reversed path; stop at a path
separator, and on the first dot return the extension (dot included, original
order) accumulated so far. -/
def extAux (acc : List Char) : List Char → List Char
  | [] => []
  | c :: cs =>
    if c = '/' then []
    else if c = '.' then '.' :: acc
    else extAux (c :: acc) cs

/-- `filepath.Ext`: the suffix beginning at the final dot in the final path
element, or empty when there is none. -/
def filepathExt (path : String) : List Char :=
  extAux [] path.toList.reverse

/-- `isMovieFile` (client.go:428-454): the photo's declared `Type`, lowercased,
equals a movie extension with or without its dot, or the variant's
`short_path` has a movie extension (lowercased). -/
def isMovieFile (photo : Photo) (variant : SizeVariant) : Bool :=
  let photoType := photo.typ.toList.map Char.toLower
  movieExtensions.any (fun ext => photoType == ext || photoType == trimLeadingDot ext)
  || movieExtensions.any (fun ext => (filepathExt variant.shortPath).map Char.toLower == ext)

/-- `GeneratePhotoDescription` (client.go:59-114).  The size-variant lookup,
the image fetch and the inference service are oracle parameters; on success
the cleaned description is `removeThinkTags` of the trimmed completion. -/
def GeneratePhotoDescription (photo : Photo)
    (variantE : Except String SizeVariant)
    (fetch : SizeVariant → Except String (List Char))
    (oracle : Nat → Except String (List Char)) : Except String (List Char) :=
  match variantE with
  | Except.error e => Except.error ("failed to get image variant: " ++ e)
  | Except.ok variant =>
    if isMovieFile photo variant then
      Except.error ("skipping movie file (type: " ++ photo.typ ++ ", path: " ++
        variant.shortPath ++ ")")
    else
      match fetch variant with
      | Except.error e => Except.error ("failed to fetch image: " ++ e)
      | Except.ok _imageBytes =>
        match (generateWithRetry oracle).2 with
        | Except.error e =>
          Except.error ("failed to generate photo description after retries: " ++ e)
        | Except.ok description => Except.ok (removeThinkTags description)

/-! ## Dates and album description (client.go:172-265, 387-425) -/

/-- The effective date of a photo: `taken_at` formatted as `2006-01-02` when
valid, else `created_at` so formatted (client.go:234-239). -/
def photoDate (photo : Photo) : String :=
  match photo.takenAt with
  | some d => d
  | none => photo.createdAt

/-- `extractPhotoData` (client.go:225-243): the stored descriptions of the
photos that have one (in order), and the effective date of every photo. -/
def extractPhotoData (photos : List Photo) : List String × List String :=
  (photos.filterMap Photo.aiDescription, photos.map photoDate)

/-- Go's `<` on strings: lexicographic comparison of the character
sequences (the dates compared here are ASCII, where Go's byte order and the
code-point order coincide). -/
def ltChars : List Char → List Char → Bool
  | [], [] => false
  | [], _ :: _ => true
  | _ :: _, [] => false
  | a :: as, b :: bs => if a < b then true else if b < a then false else ltChars as bs

/-- Go's `a < b` on strings. -/
def goLt (a b : String) : Bool := ltChars a.toList b.toList

/-- Go's `a <= b` on strings (lexicographic). -/
def goLe (a b : String) : Bool := !goLt b a

/-- `getMinDate` (client.go:401-412): `"Unknown"` on the empty list, else the
left fold of Go's `<` from the first element. -/
def getMinDate (dates : List String) : String :=
  match dates with
  | [] => "Unknown"
  | first :: rest => rest.foldl (fun m date => if goLt date m then date else m) first

/-- `getMaxDate` (client.go:414-425). -/
def getMaxDate (dates : List String) : String :=
  match dates with
  | [] => "Unknown"
  | first :: rest => rest.foldl (fun m date => if goLt m date then date else m) first

/-! ## Hierarchical compaction (client.go:456-541)

`compressBatchDescriptions` is one inference call per batch; it is the oracle
`compress`, taking the 1-based batch number and the batch. -/

/-- The batching loop (client.go:465-472): contiguous slices of
`maxDescriptionsBeforeCompaction` descriptions, the last one possibly
shorter. -/
def makeBatches : List String → List (List String)
  | [] => []
  | d :: ds =>
    (d :: ds).take maxDescriptionsBeforeCompaction ::
      makeBatches ((d :: ds).drop maxDescriptionsBeforeCompaction)
termination_by l => l.length
decreasing_by
  simp only [List.length_drop, List.length_cons, maxDescriptionsBeforeCompaction]
  omega

/-- The per-level compression loop (client.go:477-488): compress each batch in
order; the first failure aborts with `failed to compress batch i`. -/
def compressAll (compress : Nat → List String → Except String String) :
    Nat → List (List String) → Except String (List String)
  | _, [] => Except.ok []
  | i, batch :: rest =>
    match compress i batch with
    | Except.error e =>
      Except.error ("failed to compress batch " ++ toString i ++ ": " ++ e)
    | Except.ok compressed =>
      match compressAll compress (i + 1) rest with
      | Except.error e => Except.error e
      | Except.ok others => Except.ok (compressed :: others)

/-- On success `compressAll` yields one summary per batch. -/
theorem compressAll_ok_length (compress : Nat → List String → Except String String) :
    ∀ (i : Nat) (batches : List (List String)) (cs : List String),
      compressAll compress i batches = Except.ok cs → cs.length = batches.length := by
  intro i batches
  induction batches generalizing i with
  | nil => intro cs h; simp [compressAll] at h; simp [← h]
  | cons b bs ih =>
    intro cs h
    simp only [compressAll] at h
    cases hc : compress i b with
    | error e => rw [hc] at h; exact absurd h (by simp)
    | ok c =>
      rw [hc] at h
      cases hrec : compressAll compress (i + 1) bs with
      | error e => rw [hrec] at h; exact absurd h (by simp)
      | ok others =>
        rw [hrec] at h
        have := ih (i + 1) others hrec
        cases h
        simp [this]

/-- A list of `n` descriptions is cut into `⌈n/30⌉` batches. -/
theorem makeBatches_length_aux :
    ∀ (n : Nat) (l : List String), l.length ≤ n →
      (makeBatches l).length = (l.length + 29) / 30 := by
  intro n
  induction n with
  | zero =>
    intro l hl
    have : l = [] := List.length_eq_zero.mp (Nat.le_zero.mp hl)
    subst this
    simp [makeBatches]
  | succ n ih =>
    intro l hl
    match l with
    | [] => simp [makeBatches]
    | d :: ds =>
      have hdrop : ((d :: ds).drop maxDescriptionsBeforeCompaction).length ≤ n := by
        simp only [List.length_drop, List.length_cons, maxDescriptionsBeforeCompaction]
        simp only [List.length_cons] at hl
        omega
      have heq := ih ((d :: ds).drop maxDescriptionsBeforeCompaction) hdrop
      simp only [List.length_drop, List.length_cons, maxDescriptionsBeforeCompaction] at heq
      simp only [makeBatches, maxDescriptionsBeforeCompaction, List.length_cons]
      rw [heq]
      omega

/-- A list of `n` descriptions is cut into `⌈n/30⌉` batches. -/
theorem makeBatches_length (l : List String) :
    (makeBatches l).length = (l.length + 29) / 30 :=
  makeBatches_length_aux l.length l le_rfl

/-- Strict shrinkage: above the threshold, batching produces strictly fewer
batches than inputs. -/
theorem makeBatches_length_lt (l : List String)
    (h : maxDescriptionsBeforeCompaction < l.length) :
    (makeBatches l).length < l.length := by
  rw [makeBatches_length]
  simp only [maxDescriptionsBeforeCompaction] at h
  omega

/-- `compactDescriptionsHierarchically` (client.go:456-498): identity at or
below the threshold; otherwise batch, compress every batch, and recurse while
more than the threshold remain.  Termination is exactly the source's
invariant: each level maps `n` descriptions to `⌈n/30⌉ < n` summaries. -/
def compactDescriptionsHierarchically
    (compress : Nat → List String → Except String String)
    (descriptions : List String) : Except String (List String) :=
  if descriptions.length ≤ maxDescriptionsBeforeCompaction then
    Except.ok descriptions
  else
    match hc : compressAll compress 1 (makeBatches descriptions) with
    | Except.error e => Except.error e
    | Except.ok compressedBatches =>
      if maxDescriptionsBeforeCompaction < compressedBatches.length then
        compactDescriptionsHierarchically compress compressedBatches
      else
        Except.ok compressedBatches
termination_by descriptions.length
decreasing_by
  rename_i hgt
  rw [compressAll_ok_length compress 1 (makeBatches descriptions) compressedBatches hc]
  exact makeBatches_length_lt descriptions (by omega)

/-- `GenerateAlbumDescription` (client.go:172-222).  `compress` is the
batch-compression oracle, `synth` the synthesis-call outcome given the
(possibly compacted) description list; on success the date-range sentence is
appended from the original (pre-compaction) per-photo dates. -/
def GenerateAlbumDescription (photos : List Photo)
    (compress : Nat → List String → Except String String)
    (synth : List String → Except String String) : Except String String :=
  let extracted := extractPhotoData photos
  let photoDescriptions := extracted.1
  let dates := extracted.2
  if photoDescriptions.length = 0 then
    Except.error "no photo descriptions available for album synthesis"
  else
    let compactedE :=
      if maxDescriptionsBeforeCompaction < photoDescriptions.length then
        compactDescriptionsHierarchically compress photoDescriptions
      else
        Except.ok photoDescriptions
    match compactedE with
    | Except.error e => Except.error ("failed to compact descriptions: " ++ e)
    | Except.ok compactedDescriptions =>
      match synth compactedDescriptions with
      | Except.error e =>
        Except.error ("failed to generate album description after retries: " ++ e)
      | Except.ok generatedDescription =>
        if 0 < dates.length then
          Except.ok (generatedDescription ++ " The album contains photos from dates " ++
            getMinDate dates ++ " to " ++ getMaxDate dates ++ ".")
        else
          Except.ok generatedDescription

/-! ## Album suggestions (`GenerateAlbumSuggestions`, client.go:267-369) -/

/-- The validation loop (client.go:358-366): walk the model's `album_ids` in
order, keep the ids present in the supplied album set, and stop as soon as
three are collected. -/
def suggestionLoop (valid : String → Bool) : List String → List String → List String
  | [], suggestions => suggestions
  | albumID :: rest, suggestions =>
    if valid albumID then
      let suggestions2 := suggestions ++ [albumID]
      if 3 ≤ suggestions2.length then suggestions2
      else suggestionLoop valid rest suggestions2
    else suggestionLoop valid rest suggestions

/-- `GenerateAlbumSuggestions` (client.go:267-369).  `parsed` is the combined
outcome of the inference call and the JSON decode: on success it is the
model's parsed `album_ids` array. -/
def GenerateAlbumSuggestions (photo : Photo) (albums : List Album)
    (parsed : Except String (List String)) : Except String (List String) :=
  let albumDescs := albums.filterMap (fun album =>
    album.aiDescription.map (fun d =>
      "Album ID " ++ album.id ++ ": \"" ++ album.title ++ "\": " ++ d))
  if albumDescs.length = 0 then
    Except.error "no album descriptions available for suggestions"
  else
    match photo.aiDescription with
    | none => Except.error "photo has no AI description"
    | some _photoDesc =>
      match parsed with
      | Except.error e => Except.error e
      | Except.ok albumIDs =>
        Except.ok (suggestionLoop (fun id => albums.any (fun a => a.id == id)) albumIDs [])

/-! ## Candidate-pool queries (`internal/database/database.go`)

The relational state visible to the verified queries: the photo rows, the
album rows (with top-level status) and the `photo_album` membership table.
Only the `WHERE` clauses are modelled; `ORDER BY` affects presentation order
only. -/

/-- The database state read by the candidate-pool queries.  `photoAlbum`
entries are `(album_id, photo_id)` pairs. -/
structure DBState where
  photos : List Photo
  albums : List Album
  photoAlbum : List (String × String)

/-- `GetPhotosWithoutAIDescription` (database.go:116-155):
`WHERE _ai_description IS NULL`. -/
def GetPhotosWithoutAIDescription (db : DBState) : List Photo :=
  db.photos.filter (fun p => p.aiDescription.isNone)

/-- Whether `aid` names a top-level album: `base_albums LEFT JOIN albums`
with `a.parent_id IS NULL OR a.id IS NULL`. -/
def isTopLevelAlbumID (db : DBState) (aid : String) : Bool :=
  db.albums.any (fun a => a.id == aid && a.parentId.isNone)

/-- `GetAllPhotosWithoutAIDescription` (database.go:253-298):
`WHERE _ai_description IS NULL AND (id NOT IN photo_album OR id IN
(photos of top-level albums))`. -/
def GetAllPhotosWithoutAIDescription (db : DBState) : List Photo :=
  db.photos.filter (fun p =>
    p.aiDescription.isNone &&
      (!(db.photoAlbum.any (fun pa => pa.2 == p.id)) ||
        db.photoAlbum.any (fun pa => pa.2 == p.id && isTopLevelAlbumID db pa.1)))

/-! ## Suggestion cache and the suggestions HTTP handler
(`internal/cache/cache.go`, `internal/api/api.go:375-461`)

The cache's in-memory map (`Cache.Get`, cache.go:63-66) is a partial map from
photo id to the stored suggestion list; the repository reads and the
suggestion engine are oracle parameters.  The handler also returns how often
the suggestion engine (and hence the inference client) was invoked. -/

/-- A rendered album entry of the JSON response (`AlbumResponse`). -/
structure AlbumResponse where
  id : String
  name : String
  description : String
deriving Repr, DecidableEq

/-- The HTTP outcomes of `handlePhotoSuggestions`. -/
inductive HttpOutcome where
  | badRequest (msg : String)
  | notFoundResp
  | internalError
  | okResp (albums : List AlbumResponse)
deriving Repr, DecidableEq

/-- The `albumMap` of the handler: a Go map built by iterating the album list,
so a later row with the same id overwrites an earlier one. -/
def albumMapFind (albums : List Album) (albumID : String) : Option Album :=
  albums.foldl (fun acc a => if a.id == albumID then some a else acc) none

/-- How the handler renders one album (api.go:443-452): the name field
currently repeats the id, and a NULL description renders as `""`. -/
def renderAlbum (album : Album) : AlbumResponse :=
  { id := album.id, name := album.id,
    description := album.aiDescription.getD "" }

/-- The response-building loop (api.go:441-457): walk the suggestion ids in
order, keep those still naming an album in the map, and stop once three
entries were rendered. -/
def suggestionResponseLoop (find : String → Option Album) :
    List String → List AlbumResponse → List AlbumResponse
  | [], acc => acc
  | albumID :: rest, acc =>
    let acc2 :=
      match find albumID with
      | some album => acc ++ [renderAlbum album]
      | none => acc
    if 3 ≤ acc2.length then acc2 else suggestionResponseLoop find rest acc2

/-- The tail of the handler shared by the hit and miss paths
(api.go:428-461): re-read the top-level albums and render the suggestion
list against them. -/
def respondSuggestions (albumsE : Except String (List Album))
    (suggestions : List String) : HttpOutcome :=
  match albumsE with
  | Except.error _ => HttpOutcome.internalError
  | Except.ok albums =>
    HttpOutcome.okResp (suggestionResponseLoop (albumMapFind albums) suggestions [])

/-- `handlePhotoSuggestions` (api.go:375-461).  `cacheMap` is the cache's map
(`Cache.Get`), `albumsE`/`photosE` the repository reads (the handler issues
`GetTopLevelAlbums` again after resolving the suggestions, modelled by reusing
`albumsE`), and `suggest` the suggestion engine.  The second component counts
suggestion-engine invocations. -/
def handlePhotoSuggestions (cacheMap : String → Option (List String))
    (photoID : String) (albumsE : Except String (List Album))
    (photosE : Except String (List Photo))
    (suggest : Photo → List Album → Except String (List String)) :
    HttpOutcome × Nat :=
  if photoID = "" then (HttpOutcome.badRequest "photo_id parameter required", 0)
  else
    match cacheMap photoID with
    | some suggestions => (respondSuggestions albumsE suggestions, 0)
    | none =>
      match albumsE with
      | Except.error _ => (HttpOutcome.internalError, 0)
      | Except.ok albums =>
        match photosE with
        | Except.error _ => (HttpOutcome.internalError, 0)
        | Except.ok photos =>
          match photos.find? (fun p => p.id == photoID) with
          | none => (HttpOutcome.notFoundResp, 0)
          | some targetPhoto =>
            match suggest targetPhoto albums with
            | Except.error _ => (HttpOutcome.internalError, 1)
            | Except.ok suggestions =>
              (respondSuggestions albumsE suggestions, 1)

/-! ## Batch jobs and the progress protocol (`internal/websocket/websocket.go`)

Each handler is a pure function from its candidate pool and per-item oracles
to the stream of events written to the connection. -/

/-- The `complete` payload's error summary (`ErrorSummary`,
websocket.go:31-35). -/
structure ErrorSummary where
  photoErrors : List String
  albumErrors : List String
  totalErrors : Nat
deriving Repr, DecidableEq

/-- An outbound message: a progress update, a terminal complete message whose
payload may or may not carry an error summary, or a job-fatal error. -/
inductive Event where
  | progress (stage : String) (current total : Nat) (description : String)
  | complete (message : String) (errors : Option ErrorSummary)
  | errorEvent (msg : String)
deriving Repr, DecidableEq

/-- The per-photo loop of `handleDescribePhotos` (websocket.go:192-209):
progress first, then describe and persist; failures are recorded and the loop
continues.  Returns the events and the accumulated photo errors. -/
def describePhotosLoop (describe : Photo → Except String String)
    (persist : Photo → String → Except String Unit) (total : Nat) :
    List Photo → Nat → List String → List Event × List String
  | [], _, photoErrors => ([], photoErrors)
  | photo :: rest, i, photoErrors =>
    let ev := Event.progress "photos" (i + 1) total ("Processing photo: " ++ photo.title)
    match describe photo with
    | Except.error e =>
      let msg := "Photo " ++ photo.id ++ " (" ++ photo.title ++ "): " ++ e
      let r := describePhotosLoop describe persist total rest (i + 1) (photoErrors ++ [msg])
      (ev :: r.1, r.2)
    | Except.ok description =>
      match persist photo description with
      | Except.error e =>
        let msg := "Photo " ++ photo.id ++ " (" ++ photo.title ++
          "): Failed to save description: " ++ e
        let r := describePhotosLoop describe persist total rest (i + 1) (photoErrors ++ [msg])
        (ev :: r.1, r.2)
      | Except.ok _ =>
        let r := describePhotosLoop describe persist total rest (i + 1) photoErrors
        (ev :: r.1, r.2)

/-- `handleDescribePhotos` (websocket.go:172-221). -/
def handleDescribePhotos (poolE : Except String (List Photo))
    (describe : Photo → Except String String)
    (persist : Photo → String → Except String Unit) : List Event :=
  match poolE with
  | Except.error e => [Event.errorEvent ("Failed to get photos: " ++ e)]
  | Except.ok photos =>
    if photos.length = 0 then
      [Event.complete "No photos need descriptions"
        (some { photoErrors := [], albumErrors := [], totalErrors := 0 })]
    else
      let r := describePhotosLoop describe persist photos.length photos 0 []
      r.1 ++ [Event.complete
        ("Described " ++ toString (photos.length - r.2.length) ++ " photos")
        (some { photoErrors := r.2, albumErrors := [], totalErrors := r.2.length })]

/-- The per-album loop shared by `handleDescribeAllAlbums`
(websocket.go:243-274) and `handleRetryAlbumFailures` (websocket.go:308-339):
progress first, then fetch the member photos, describe and persist; failures
(including an empty album) are recorded and the loop continues. -/
def describeAlbumsLoop (getPhotos : Album → Except String (List Photo))
    (describe : Album → List Photo → Except String String)
    (persist : Album → String → Except String Unit) (total : Nat) :
    List Album → Nat → List String → List Event × List String
  | [], _, albumErrors => ([], albumErrors)
  | album :: rest, i, albumErrors =>
    let ev := Event.progress "albums" (i + 1) total ("Describing album: " ++ album.title)
    match getPhotos album with
    | Except.error e =>
      let msg := "Album " ++ album.id ++ " (" ++ album.title ++
        "): Failed to get photos: " ++ e
      let r := describeAlbumsLoop getPhotos describe persist total rest (i + 1)
        (albumErrors ++ [msg])
      (ev :: r.1, r.2)
    | Except.ok albumPhotos =>
      if albumPhotos.length = 0 then
        let msg := "Album " ++ album.id ++ " (" ++ album.title ++ "): No photos found"
        let r := describeAlbumsLoop getPhotos describe persist total rest (i + 1)
          (albumErrors ++ [msg])
        (ev :: r.1, r.2)
      else
        match describe album albumPhotos with
        | Except.error e =>
          let msg := "Album " ++ album.id ++ " (" ++ album.title ++ "): " ++ e
          let r := describeAlbumsLoop getPhotos describe persist total rest (i + 1)
            (albumErrors ++ [msg])
          (ev :: r.1, r.2)
        | Except.ok description =>
          match persist album description with
          | Except.error e =>
            let msg := "Album " ++ album.id ++ " (" ++ album.title ++
              "): Failed to save description: " ++ e
            let r := describeAlbumsLoop getPhotos describe persist total rest (i + 1)
              (albumErrors ++ [msg])
            (ev :: r.1, r.2)
          | Except.ok _ =>
            let r := describeAlbumsLoop getPhotos describe persist total rest (i + 1)
              albumErrors
            (ev :: r.1, r.2)

/-- `handleDescribeAllAlbums` (websocket.go:223-286). -/
def handleDescribeAllAlbums (poolE : Except String (List Album))
    (getPhotos : Album → Except String (List Photo))
    (describe : Album → List Photo → Except String String)
    (persist : Album → String → Except String Unit) : List Event :=
  match poolE with
  | Except.error e => [Event.errorEvent ("Failed to get albums: " ++ e)]
  | Except.ok albums =>
    if albums.length = 0 then
      [Event.complete "No albums to describe"
        (some { photoErrors := [], albumErrors := [], totalErrors := 0 })]
    else
      let r := describeAlbumsLoop getPhotos describe persist albums.length albums 0 []
      r.1 ++ [Event.complete
        ("Described " ++ toString (albums.length - r.2.length) ++ " albums")
        (some { photoErrors := [], albumErrors := r.2, totalErrors := r.2.length })]

/-- `handleRetryAlbumFailures` (websocket.go:288-351): identical to
`handleDescribeAllAlbums` except for the candidate pool (albums still lacking
a description) and the empty-pool message. -/
def handleRetryAlbumFailures (poolE : Except String (List Album))
    (getPhotos : Album → Except String (List Photo))
    (describe : Album → List Photo → Except String String)
    (persist : Album → String → Except String Unit) : List Event :=
  match poolE with
  | Except.error e => [Event.errorEvent ("Failed to get albums: " ++ e)]
  | Except.ok albums =>
    if albums.length = 0 then
      [Event.complete "No albums need descriptions"
        (some { photoErrors := [], albumErrors := [], totalErrors := 0 })]
    else
      let r := describeAlbumsLoop getPhotos describe persist albums.length albums 0 []
      r.1 ++ [Event.complete
        ("Described " ++ toString (albums.length - r.2.length) ++ " albums")
        (some { photoErrors := [], albumErrors := r.2, totalErrors := r.2.length })]

/-- The photo stage of `handleRescan` (websocket.go:101-115): progress first;
describe/persist failures are logged only (nothing is accumulated) and the
loop continues.  Returns the events and the final running counter. -/
def rescanPhotoLoop (describe : Photo → Except String String)
    (persist : Photo → String → Except String Unit) (total : Nat) :
    List Photo → Nat → List Event × Nat
  | [], current => ([], current)
  | photo :: rest, current =>
    let ev := Event.progress "photos" (current + 1) total
      ("Processing photo: " ++ photo.title)
    let r :=
      match describe photo with
      | Except.error _ => rescanPhotoLoop describe persist total rest (current + 1)
      | Except.ok description =>
        match persist photo description with
        | Except.error _ => rescanPhotoLoop describe persist total rest (current + 1)
        | Except.ok _ => rescanPhotoLoop describe persist total rest (current + 1)
    (ev :: r.1, r.2)

/-- The album stage of `handleRescan` (websocket.go:118-142): progress first
(labelled with the album id); failures are logged only and the loop
continues. -/
def rescanAlbumLoop (getPhotos : Album → Except String (List Photo))
    (describe : Album → List Photo → Except String String)
    (persist : Album → String → Except String Unit) (total : Nat) :
    List Album → Nat → List Event × Nat
  | [], current => ([], current)
  | album :: rest, current =>
    let ev := Event.progress "albums" (current + 1) total
      ("Regenerating album description: " ++ album.id)
    let r :=
      match getPhotos album with
      | Except.error _ => rescanAlbumLoop getPhotos describe persist total rest (current + 1)
      | Except.ok albumPhotos =>
        if albumPhotos.length = 0 then
          rescanAlbumLoop getPhotos describe persist total rest (current + 1)
        else
          match describe album albumPhotos with
          | Except.error _ =>
            rescanAlbumLoop getPhotos describe persist total rest (current + 1)
          | Except.ok description =>
            match persist album description with
            | Except.error _ =>
              rescanAlbumLoop getPhotos describe persist total rest (current + 1)
            | Except.ok _ =>
              rescanAlbumLoop getPhotos describe persist total rest (current + 1)
    (ev :: r.1, r.2)

/-- `handleRescan` (websocket.go:77-145): one running counter across the
photo and album stages; the terminal complete payload is the bare message
`"Rescan complete"` (a `map[string]string` with no error summary). -/
def handleRescan (photosE : Except String (List Photo))
    (albumsE : Except String (List Album))
    (describeP : Photo → Except String String)
    (persistP : Photo → String → Except String Unit)
    (getPhotos : Album → Except String (List Photo))
    (describeA : Album → List Photo → Except String String)
    (persistA : Album → String → Except String Unit) : List Event :=
  match photosE with
  | Except.error e => [Event.errorEvent ("Failed to get photos: " ++ e)]
  | Except.ok photos =>
    match albumsE with
    | Except.error e => [Event.errorEvent ("Failed to get albums: " ++ e)]
    | Except.ok albums =>
      let totalWork := photos.length + albums.length
      if totalWork = 0 then
        [Event.complete "No photos or albums to process" none]
      else
        let pr := rescanPhotoLoop describeP persistP totalWork photos 0
        let ar := rescanAlbumLoop getPhotos describeA persistA totalWork albums pr.2
        pr.1 ++ ar.1 ++ [Event.complete "Rescan complete" none]

/-! ## Lemmas about the suggestion-validation loop -/

/-- The validation loop is filter-then-take: starting from fewer than three
collected suggestions it appends the valid ids in model order up to the
remaining quota. -/
theorem suggestionLoop_eq (valid : String → Bool) :
    ∀ (albumIDs : List String) (acc : List String), acc.length < 3 →
      suggestionLoop valid albumIDs acc =
        acc ++ (albumIDs.filter valid).take (3 - acc.length) := by
  intro albumIDs
  induction albumIDs with
  | nil => intro acc _; simp [suggestionLoop]
  | cons albumID rest ih =>
    intro acc hacc
    simp only [suggestionLoop, List.filter_cons]
    by_cases hv : valid albumID
    · simp only [hv, if_true, List.length_append, List.length_cons, List.length_nil]
      by_cases hfull : 3 ≤ acc.length + (0 + 1)
      · have h2 : acc.length = 2 := by omega
        rw [if_pos hfull]
        have : 3 - acc.length = 1 := by omega
        simp [this, List.take_succ_cons]
      · rw [if_neg hfull]
        rw [ih (acc ++ [albumID]) (by simp; omega)]
        have h3 : 3 - acc.length = (3 - (acc.length + 1)) + 1 := by omega
        simp only [List.length_append, List.length_cons, List.length_nil]
        rw [h3, List.take_succ_cons, List.append_assoc]
        simp
    · simp only [hv, if_false, Bool.false_eq_true]
      rw [ih acc hacc]

/-- C1: on success `GenerateAlbumSuggestions` returns at most three ids, every
returned id names an album of the supplied list, and the returned ids are a
sublist (hence in the same relative order) of the model's parsed `album_ids`
array. -/
theorem claim1_suggestions_validated (photo : Photo) (albums : List Album)
    (parsed : Except String (List String)) (r : List String)
    (hok : GenerateAlbumSuggestions photo albums parsed = Except.ok r) :
    r.length ≤ 3 ∧ (∀ i ∈ r, ∃ a ∈ albums, a.id = i) ∧
      ∃ albumIDs, parsed = Except.ok albumIDs ∧ r.Sublist albumIDs := by
  simp only [GenerateAlbumSuggestions] at hok
  by_cases hlen : (albums.filterMap fun album => album.aiDescription.map fun d =>
      "Album ID " ++ album.id ++ ": \"" ++ album.title ++ "\": " ++ d).length = 0
  · rw [if_pos hlen] at hok
    exact absurd hok (by simp)
  · rw [if_neg hlen] at hok
    cases hdesc : photo.aiDescription with
    | none => rw [hdesc] at hok; exact absurd hok (by simp)
    | some pd =>
      rw [hdesc] at hok
      cases hp : parsed with
      | error e => rw [hp] at hok; exact absurd hok (by simp)
      | ok albumIDs =>
        rw [hp] at hok
        have hr : r = suggestionLoop (fun i => albums.any (fun a => a.id == i)) albumIDs [] := by
          exact (Except.ok.injEq _ _).mp hok.symm
        rw [suggestionLoop_eq _ albumIDs [] (by simp)] at hr
        simp only [List.nil_append, List.length_nil, Nat.sub_zero] at hr
        refine ⟨?_, ?_, albumIDs, rfl, ?_⟩
        · rw [hr]
          exact le_trans (List.length_take_le _ _) (le_refl 3)
        · intro i hi
          rw [hr] at hi
          have hmem := List.mem_of_mem_take hi
          have := (List.mem_filter.mp hmem).2
          have := List.any_eq_true.mp this
          obtain ⟨a, ha, hbeq⟩ := this
          exact ⟨a, ha, by simpa using hbeq⟩
        · rw [hr]
          exact ((List.take_prefix _ _).sublist).trans (List.filter_sublist _)

/-- Concrete run of the C1 theorem: a parsed array containing a hallucinated
id `"Z"` is filtered against the two supplied albums. -/
theorem claim1_suggestions_validated_witness :
    (["B", "A"] : List String).length ≤ 3 ∧
      (∀ i ∈ (["B", "A"] : List String),
        ∃ a ∈ [Album.mk "A" "Alpha" none (some "alpha"), Album.mk "B" "Beta" none (some "beta")],
          a.id = i) ∧
      ∃ albumIDs, (Except.ok ["B", "Z", "A"] : Except String (List String)) = Except.ok albumIDs ∧
        (["B", "A"] : List String).Sublist albumIDs :=
  claim1_suggestions_validated
    (Photo.mk "p1" "P" "2024-01-01" none "jpg" (some "desc"))
    [Album.mk "A" "Alpha" none (some "alpha"), Album.mk "B" "Beta" none (some "beta")]
    (Except.ok ["B", "Z", "A"]) ["B", "A"] (by rfl)

/-! ## Order facts about Go's lexicographic string comparison -/

/-- No character list compares strictly below itself. -/
theorem ltChars_irrefl : ∀ l : List Char, ltChars l l = false := by
  intro l
  induction l with
  | nil => rfl
  | cons a as ih =>
    simp only [ltChars]
    rw [if_neg (lt_irrefl a), if_neg (lt_irrefl a)]
    exact ih

/-- Nothing compares strictly below the empty list. -/
theorem ltChars_nil_right : ∀ l : List Char, ltChars l [] = false := by
  intro l
  cases l with
  | nil => rfl
  | cons a as => rfl

/-- Only the empty list fails to exceed the empty list. -/
theorem ltChars_nil_left (l : List Char) (h : ltChars [] l = false) : l = [] := by
  cases l with
  | nil => rfl
  | cons a as => exact absurd h (by simp [ltChars])

/-- The strict comparison is asymmetric. -/
theorem ltChars_asymm : ∀ (a b : List Char), ltChars a b = true → ltChars b a = false := by
  intro a
  induction a with
  | nil =>
    intro b _
    exact ltChars_nil_right b
  | cons x xs ih =>
    intro b hab
    cases b with
    | nil =>
      rw [ltChars_nil_right] at hab
      exact absurd hab (by simp)
    | cons y ys =>
      simp only [ltChars] at hab ⊢
      by_cases hxy : x < y
      · rw [if_neg (lt_asymm hxy), if_pos hxy]
      · rw [if_neg hxy] at hab
        by_cases hyx : y < x
        · rw [if_pos hyx] at hab
          exact absurd hab (by simp)
        · rw [if_neg hyx] at hab
          rw [if_neg hyx, if_neg hxy]
          exact ih ys hab

/-- The associated non-strict comparison is transitive. -/
theorem ltChars_le_trans :
    ∀ (c a b : List Char), ltChars b a = false → ltChars c b = false →
      ltChars c a = false := by
  intro c
  induction c with
  | nil =>
    intro a b h1 h2
    have hb : b = [] := ltChars_nil_left b h2
    subst hb
    have ha : a = [] := ltChars_nil_left a h1
    subst ha
    rfl
  | cons z zs ih =>
    intro a b h1 h2
    cases a with
    | nil => exact ltChars_nil_right _
    | cons x xs =>
      cases b with
      | nil => exact absurd h1 (by simp [ltChars])
      | cons y ys =>
        simp only [ltChars] at h1 h2 ⊢
        by_cases hyx : y < x
        · rw [if_pos hyx] at h1
          exact absurd h1 (by simp)
        · rw [if_neg hyx] at h1
          by_cases hzy : z < y
          · rw [if_pos hzy] at h2
            exact absurd h2 (by simp)
          · rw [if_neg hzy] at h2
            have hxy : x ≤ y := le_of_not_lt hyx
            have hyz : y ≤ z := le_of_not_lt hzy
            have hzx : ¬ z < x := not_lt_of_ge (le_trans hxy hyz)
            rw [if_neg hzx]
            by_cases hxz : x < z
            · rw [if_pos hxz]
            · rw [if_neg hxz]
              have hzx2 : z ≤ x := le_of_not_lt hxz
              have hex : x = z := le_antisymm (le_trans hxy hyz) hzx2
              have hey : y = z := le_antisymm hyz (le_trans hzx2 hxy)
              have heqxy : x = y := by rw [hex, hey]
              rw [if_neg (show ¬ x < y by rw [heqxy]; exact lt_irrefl y)] at h1
              rw [if_neg (show ¬ y < z by rw [hey]; exact lt_irrefl z)] at h2
              exact ih xs ys h1 h2

/-- Reflexivity of `goLe`. -/
theorem goLe_refl (a : String) : goLe a a = true := by
  simp [goLe, goLt, ltChars_irrefl]

/-- A strict comparison yields a non-strict one. -/
theorem goLe_of_goLt (a b : String) (h : goLt a b = true) : goLe a b = true := by
  simp only [goLe, goLt] at h ⊢
  rw [ltChars_asymm _ _ h]
  rfl

/-- Failure of the strict comparison yields the reverse non-strict one. -/
theorem goLe_of_not_goLt (a b : String) (h : goLt a b = false) : goLe b a = true := by
  simp only [goLe, goLt] at h ⊢
  rw [h]
  rfl

/-- Transitivity of `goLe`. -/
theorem goLe_trans (a b c : String) (h1 : goLe a b = true) (h2 : goLe b c = true) :
    goLe a c = true := by
  simp only [goLe, goLt, Bool.not_eq_true', Bool.not_eq_true] at h1 h2 ⊢
  exact ltChars_le_trans _ _ _ h1 h2

/-! ## Lemmas about `getMinDate` / `getMaxDate` -/

/-- The running minimum of the fold in `getMinDate` is one of the scanned
dates. -/
theorem foldlMin_mem :
    ∀ (rest : List String) (first : String),
      rest.foldl (fun m date => if goLt date m then date else m) first ∈ first :: rest := by
  intro rest
  induction rest with
  | nil => intro first; exact List.mem_cons_self _ _
  | cons d ds ih =>
    intro first
    rw [List.foldl_cons]
    rcases List.mem_cons.mp (ih (if goLt d first then d else first)) with h | h
    · rw [h]
      by_cases hd : goLt d first = true
      · rw [if_pos hd]
        exact List.mem_cons.mpr (Or.inr (List.mem_cons_self _ _))
      · rw [if_neg hd]
        exact List.mem_cons_self _ _
    · exact List.mem_cons.mpr (Or.inr (List.mem_cons.mpr (Or.inr h)))

/-- The running minimum of the fold in `getMinDate` is a lower bound of the
scanned dates. -/
theorem foldlMin_le :
    ∀ (rest : List String) (first : String) (d : String), d ∈ first :: rest →
      goLe (rest.foldl (fun m date => if goLt date m then date else m) first) d = true := by
  intro rest
  induction rest with
  | nil =>
    intro first d hd
    rw [List.mem_singleton] at hd
    subst hd
    exact goLe_refl _
  | cons e es ih =>
    intro first d hd
    rw [List.foldl_cons]
    have step_le_first : goLe (if goLt e first then e else first) first = true := by
      by_cases he : goLt e first = true
      · rw [if_pos he]; exact goLe_of_goLt _ _ he
      · rw [if_neg he]; exact goLe_refl _
    have step_le_e : goLe (if goLt e first then e else first) e = true := by
      by_cases he : goLt e first = true
      · rw [if_pos he]; exact goLe_refl _
      · rw [if_neg he]
        exact goLe_of_not_goLt e first (Bool.not_eq_true _ ▸ eq_false_of_ne_true he)
    rcases List.mem_cons.mp hd with h | h
    · subst h
      exact goLe_trans _ _ _ (ih _ _ (List.mem_cons_self _ _)) step_le_first
    · rcases List.mem_cons.mp h with h2 | h2
      · subst h2
        exact goLe_trans _ _ _ (ih _ _ (List.mem_cons_self _ _)) step_le_e
      · exact ih _ _ (List.mem_cons.mpr (Or.inr h2))

/-- The running maximum of the fold in `getMaxDate` is one of the scanned
dates. -/
theorem foldlMax_mem :
    ∀ (rest : List String) (first : String),
      rest.foldl (fun m date => if goLt m date then date else m) first ∈ first :: rest := by
  intro rest
  induction rest with
  | nil => intro first; exact List.mem_cons_self _ _
  | cons d ds ih =>
    intro first
    rw [List.foldl_cons]
    rcases List.mem_cons.mp (ih (if goLt first d then d else first)) with h | h
    · rw [h]
      by_cases hd : goLt first d = true
      · rw [if_pos hd]
        exact List.mem_cons.mpr (Or.inr (List.mem_cons_self _ _))
      · rw [if_neg hd]
        exact List.mem_cons_self _ _
    · exact List.mem_cons.mpr (Or.inr (List.mem_cons.mpr (Or.inr h)))

/-- The running maximum of the fold in `getMaxDate` is an upper bound of the
scanned dates. -/
theorem foldlMax_ge :
    ∀ (rest : List String) (first : String) (d : String), d ∈ first :: rest →
      goLe d (rest.foldl (fun m date => if goLt m date then date else m) first) = true := by
  intro rest
  induction rest with
  | nil =>
    intro first d hd
    rw [List.mem_singleton] at hd
    subst hd
    exact goLe_refl _
  | cons e es ih =>
    intro first d hd
    rw [List.foldl_cons]
    have first_le_step : goLe first (if goLt first e then e else first) = true := by
      by_cases he : goLt first e = true
      · rw [if_pos he]; exact goLe_of_goLt _ _ he
      · rw [if_neg he]; exact goLe_refl _
    have e_le_step : goLe e (if goLt first e then e else first) = true := by
      by_cases he : goLt first e = true
      · rw [if_pos he]; exact goLe_refl _
      · rw [if_neg he]
        exact goLe_of_not_goLt first e (Bool.not_eq_true _ ▸ eq_false_of_ne_true he)
    rcases List.mem_cons.mp hd with h | h
    · subst h
      exact goLe_trans _ _ _ first_le_step (ih _ _ (List.mem_cons_self _ _))
    · rcases List.mem_cons.mp h with h2 | h2
      · subst h2
        exact goLe_trans _ _ _ e_le_step (ih _ _ (List.mem_cons_self _ _))
      · exact ih _ _ (List.mem_cons.mpr (Or.inr h2))

/-- On a nonempty list `getMinDate` is a least element. -/
theorem getMinDate_spec (dates : List String) (h : dates ≠ []) :
    getMinDate dates ∈ dates ∧ ∀ d ∈ dates, goLe (getMinDate dates) d = true := by
  match dates with
  | [] => exact absurd rfl h
  | first :: rest =>
    exact ⟨foldlMin_mem rest first, fun d hd => foldlMin_le rest first d hd⟩

/-- On a nonempty list `getMaxDate` is a greatest element. -/
theorem getMaxDate_spec (dates : List String) (h : dates ≠ []) :
    getMaxDate dates ∈ dates ∧ ∀ d ∈ dates, goLe d (getMaxDate dates) = true := by
  match dates with
  | [] => exact absurd rfl h
  | first :: rest =>
    exact ⟨foldlMax_mem rest first, fun d hd => foldlMax_ge rest first d hd⟩

/-- C2: when at least one member photo has a stored description, every
successful album description ends with exactly the literal date-range
sentence, whose bounds are the lexicographic minimum and maximum of the
original (pre-compaction) per-photo effective dates, and the minimum is at
most the maximum. -/
theorem claim2_album_date_suffix (photos : List Photo)
    (compress : Nat → List String → Except String String)
    (synth : List String → Except String String) (s : String)
    (hdesc : photos.filterMap Photo.aiDescription ≠ [])
    (hok : GenerateAlbumDescription photos compress synth = Except.ok s) :
    ∃ g, s = g ++ " The album contains photos from dates " ++
        getMinDate (photos.map photoDate) ++ " to " ++
        getMaxDate (photos.map photoDate) ++ "." ∧
      getMinDate (photos.map photoDate) ∈ photos.map photoDate ∧
      getMaxDate (photos.map photoDate) ∈ photos.map photoDate ∧
      (∀ d ∈ photos.map photoDate,
        goLe (getMinDate (photos.map photoDate)) d = true ∧
        goLe d (getMaxDate (photos.map photoDate)) = true) ∧
      goLe (getMinDate (photos.map photoDate)) (getMaxDate (photos.map photoDate)) = true := by
  have hphotos : photos ≠ [] := by
    intro hnil
    rw [hnil] at hdesc
    exact hdesc rfl
  have hdates : photos.map photoDate ≠ [] := by
    simpa using hphotos
  have hmin := getMinDate_spec (photos.map photoDate) hdates
  have hmax := getMaxDate_spec (photos.map photoDate) hdates
  have hminmax : goLe (getMinDate (photos.map photoDate))
      (getMaxDate (photos.map photoDate)) = true :=
    hmax.2 _ hmin.1
  simp only [GenerateAlbumDescription, extractPhotoData] at hok
  rw [if_neg (by simpa using hdesc)] at hok
  cases hcomp : (if maxDescriptionsBeforeCompaction < (photos.filterMap Photo.aiDescription).length
      then compactDescriptionsHierarchically compress (photos.filterMap Photo.aiDescription)
      else Except.ok (photos.filterMap Photo.aiDescription)) with
  | error e => rw [hcomp] at hok; exact absurd hok (by simp)
  | ok compacted =>
    rw [hcomp] at hok
    dsimp only at hok
    cases hsyn : synth compacted with
    | error e => rw [hsyn] at hok; exact absurd hok (by simp)
    | ok g =>
      rw [hsyn] at hok
      dsimp only at hok
      rw [if_pos (by simpa using List.length_pos.mpr hdates)] at hok
      refine ⟨g, ?_, hmin.1, hmax.1, fun d hd => ⟨hmin.2 d hd, hmax.2 d hd⟩, hminmax⟩
      exact ((Except.ok.injEq _ _).mp hok).symm

/-- Concrete run of the C2 theorem: the spec's example album, photo P1 with
`taken_at` absent and `created_at` 2024-03-01, photo P2 taken 2024-01-15. -/
theorem claim2_album_date_suffix_witness :
    ∃ g, "A summary. The album contains photos from dates 2024-01-15 to 2024-03-01." =
        g ++ " The album contains photos from dates " ++
        getMinDate ([Photo.mk "p1" "P1" "2024-03-01" none "jpg" (some "Desc1"),
          Photo.mk "p2" "P2" "2024-01-10" (some "2024-01-15") "jpg" (some "Desc2")].map photoDate) ++
        " to " ++
        getMaxDate ([Photo.mk "p1" "P1" "2024-03-01" none "jpg" (some "Desc1"),
          Photo.mk "p2" "P2" "2024-01-10" (some "2024-01-15") "jpg" (some "Desc2")].map photoDate) ++
        "." ∧
      getMinDate ([Photo.mk "p1" "P1" "2024-03-01" none "jpg" (some "Desc1"),
          Photo.mk "p2" "P2" "2024-01-10" (some "2024-01-15") "jpg" (some "Desc2")].map photoDate) ∈
        [Photo.mk "p1" "P1" "2024-03-01" none "jpg" (some "Desc1"),
          Photo.mk "p2" "P2" "2024-01-10" (some "2024-01-15") "jpg" (some "Desc2")].map photoDate ∧
      getMaxDate ([Photo.mk "p1" "P1" "2024-03-01" none "jpg" (some "Desc1"),
          Photo.mk "p2" "P2" "2024-01-10" (some "2024-01-15") "jpg" (some "Desc2")].map photoDate) ∈
        [Photo.mk "p1" "P1" "2024-03-01" none "jpg" (some "Desc1"),
          Photo.mk "p2" "P2" "2024-01-10" (some "2024-01-15") "jpg" (some "Desc2")].map photoDate ∧
      (∀ d ∈ [Photo.mk "p1" "P1" "2024-03-01" none "jpg" (some "Desc1"),
          Photo.mk "p2" "P2" "2024-01-10" (some "2024-01-15") "jpg" (some "Desc2")].map photoDate,
        goLe (getMinDate ([Photo.mk "p1" "P1" "2024-03-01" none "jpg" (some "Desc1"),
          Photo.mk "p2" "P2" "2024-01-10" (some "2024-01-15") "jpg" (some "Desc2")].map photoDate)) d = true ∧
        goLe d (getMaxDate ([Photo.mk "p1" "P1" "2024-03-01" none "jpg" (some "Desc1"),
          Photo.mk "p2" "P2" "2024-01-10" (some "2024-01-15") "jpg" (some "Desc2")].map photoDate)) = true) ∧
      goLe (getMinDate ([Photo.mk "p1" "P1" "2024-03-01" none "jpg" (some "Desc1"),
          Photo.mk "p2" "P2" "2024-01-10" (some "2024-01-15") "jpg" (some "Desc2")].map photoDate))
        (getMaxDate ([Photo.mk "p1" "P1" "2024-03-01" none "jpg" (some "Desc1"),
          Photo.mk "p2" "P2" "2024-01-10" (some "2024-01-15") "jpg" (some "Desc2")].map photoDate)) = true :=
  claim2_album_date_suffix
    [Photo.mk "p1" "P1" "2024-03-01" none "jpg" (some "Desc1"),
      Photo.mk "p2" "P2" "2024-01-10" (some "2024-01-15") "jpg" (some "Desc2")]
    (fun _ _ => Except.ok "compressed")
    (fun _ => Except.ok "A summary.")
    "A summary. The album contains photos from dates 2024-01-15 to 2024-03-01."
    (by decide) (by rfl)

/-! ## Compaction: identity, output bound, per-level shrinkage -/

/-- Any successful compaction result is at most `maxDescriptionsBeforeCompaction`
long (strong induction on the input length, following the recursion). -/
theorem compact_ok_length_aux :
    ∀ (n : Nat) (compress : Nat → List String → Except String String)
      (l : List String), l.length ≤ n →
      ∀ r, compactDescriptionsHierarchically compress l = Except.ok r →
        r.length ≤ maxDescriptionsBeforeCompaction := by
  intro n
  induction n with
  | zero =>
    intro compress l hl r hr
    have hnil : l = [] := List.length_eq_zero.mp (Nat.le_zero.mp hl)
    subst hnil
    rw [compactDescriptionsHierarchically] at hr
    rw [if_pos (by simp [maxDescriptionsBeforeCompaction])] at hr
    cases hr
    simp [maxDescriptionsBeforeCompaction]
  | succ n ih =>
    intro compress l hl r hr
    by_cases h30 : l.length ≤ maxDescriptionsBeforeCompaction
    · rw [compactDescriptionsHierarchically, if_pos h30] at hr
      cases hr
      exact h30
    · rw [compactDescriptionsHierarchically, if_neg h30] at hr
      split at hr
      · exact absurd hr (by simp)
      · rename_i compressedBatches hc
        split at hr
        · rename_i hgt
          have hlen : compressedBatches.length = (makeBatches l).length :=
            compressAll_ok_length compress 1 (makeBatches l) compressedBatches hc
          have hlt : compressedBatches.length < l.length := by
            rw [hlen]
            exact makeBatches_length_lt l (lt_of_not_ge h30)
          exact ih compress compressedBatches (by omega) r hr
        · rename_i hngt
          cases hr
          exact le_of_not_lt hngt

/-- C3: with the fixed batch size `maxDescriptionsBeforeCompaction = 30`, the
compactor returns its input unchanged whenever the input has at most 30
entries, and every successful result has at most 30 entries. -/
theorem claim3_compaction_identity_and_bound
    (compress : Nat → List String → Except String String) (l : List String) :
    maxDescriptionsBeforeCompaction = 30 ∧
    (l.length ≤ 30 → compactDescriptionsHierarchically compress l = Except.ok l) ∧
    (∀ r, compactDescriptionsHierarchically compress l = Except.ok r → r.length ≤ 30) := by
  refine ⟨rfl, ?_, ?_⟩
  · intro h
    rw [compactDescriptionsHierarchically,
      if_pos (show l.length ≤ maxDescriptionsBeforeCompaction from h)]
  · intro r hr
    exact compact_ok_length_aux l.length compress l le_rfl r hr

/-- Concrete run of the C3 theorem: a one-element list is returned
unchanged. -/
theorem claim3_compaction_identity_and_bound_witness :
    compactDescriptionsHierarchically (fun _ _ => Except.ok "s") ["a"] =
      Except.ok ["a"] :=
  (claim3_compaction_identity_and_bound (fun _ _ => Except.ok "s") ["a"]).2.1 (by decide)

/-- C4: one compaction level over an input longer than the batch size produces
exactly `⌈n / 30⌉` batches, hence (on success) exactly `⌈n / 30⌉ < n`
summaries, the strict decrease that bounds the recursion depth; the
well-founded definition of `compactDescriptionsHierarchically` above is
accepted by exactly this measure, so the recursion terminates on every
input. -/
theorem claim4_compaction_level_shrinks
    (compress : Nat → List String → Except String String) (l : List String)
    (h : maxDescriptionsBeforeCompaction < l.length) :
    (makeBatches l).length = (l.length + 29) / 30 ∧
    (makeBatches l).length < l.length ∧
    ∀ cs, compressAll compress 1 (makeBatches l) = Except.ok cs →
      cs.length = (l.length + 29) / 30 ∧ cs.length < l.length := by
  refine ⟨makeBatches_length l, makeBatches_length_lt l h, ?_⟩
  intro cs hcs
  have hlen : cs.length = (makeBatches l).length :=
    compressAll_ok_length compress 1 (makeBatches l) cs hcs
  exact ⟨by rw [hlen, makeBatches_length l], by rw [hlen]; exact makeBatches_length_lt l h⟩

/-- Concrete run of the C4 theorem: 31 descriptions form 2 batches. -/
theorem claim4_compaction_level_shrinks_witness :
    (makeBatches (List.replicate 31 "d")).length = ((List.replicate 31 "d").length + 29) / 30 ∧
    (makeBatches (List.replicate 31 "d")).length < (List.replicate 31 "d").length ∧
    ∀ cs, compressAll (fun _ _ => Except.ok "s") 1 (makeBatches (List.replicate 31 "d")) =
        Except.ok cs →
      cs.length = ((List.replicate 31 "d").length + 29) / 30 ∧
        cs.length < (List.replicate 31 "d").length :=
  claim4_compaction_level_shrinks (fun _ _ => Except.ok "s") (List.replicate 31 "d")
    (by simp [maxDescriptionsBeforeCompaction])

/-! ## The inference client: retry budget and output cleaning -/

/-- The attempt pattern of the spec's retry example: the first two attempts
fail transiently, the third succeeds with text carrying a `<think>` block. -/
def c5Oracle : Nat → Except String (List Char) :=
  fun k =>
    if k < 2 then Except.error "transient failure"
    else Except.ok "  Hello <think>ignore</think> World  ".toList

/-- A three-attempt `retry.Do` run makes at most three attempts, and a success
is the verbatim outcome of the last attempt made. -/
theorem retryDo_three_spec (oracle : Nat → Except String (List Char)) :
    (retryDo oracle 3 0).1 ≤ 3 ∧
    ∀ v, (retryDo oracle 3 0).2 = Except.ok v →
      oracle ((retryDo oracle 3 0).1 - 1) = Except.ok v := by
  cases h0 : oracle 0 with
  | ok t0 =>
    constructor
    · simp [retryDo, h0]
    · intro v hv
      simp only [retryDo, h0] at hv ⊢
      cases hv
      rfl
  | error e0 =>
    cases h1 : oracle 1 with
    | ok t1 =>
      constructor
      · simp [retryDo, h0, h1]
      · intro v hv
        simp only [retryDo, h0, h1] at hv ⊢
        cases hv
        rfl
    | error e1 =>
      cases h2 : oracle 2 with
      | ok t2 =>
        constructor
        · simp [retryDo, h0, h1, h2]
        · intro v hv
          simp only [retryDo, h0, h1, h2] at hv ⊢
          cases hv
          rfl
      | error e2 =>
        constructor
        · simp [retryDo, h0, h1, h2]
        · intro v hv
          simp only [retryDo, h0, h1, h2] at hv
          exact absurd hv (by simp)

/-- C5 (amended): the inference client makes at most 3 attempts and, on
success, returns the last attempt's completion trimmed of surrounding
whitespace with the `<think>` scrubbing of `removeThinkTags` applied; on the
spec's example attempt pattern, exactly 3 attempts are made and the returned
value is `"Hello  World"` — with the two adjacent interior spaces that remain
once the `<think>...</think>` block between them is deleted, since the regex
replacement inserts nothing and the final trim only touches the ends. -/
theorem claim5_retry_and_strip_amended :
    (∀ oracle : Nat → Except String (List Char),
      (generateWithRetry oracle).1 ≤ 3 ∧
      ∀ w, (generateWithRetry oracle).2.map removeThinkTags = Except.ok w →
        ∃ t, oracle ((generateWithRetry oracle).1 - 1) = Except.ok t ∧
          w = removeThinkTags (trimChars t)) ∧
    (generateWithRetry c5Oracle).1 = 3 ∧
    (generateWithRetry c5Oracle).2.map removeThinkTags =
      Except.ok "Hello  World".toList := by
  refine ⟨?_, by rfl, by rfl⟩
  intro oracle
  have hspec := retryDo_three_spec oracle
  constructor
  · exact hspec.1
  · intro w hw
    have hw2 : ((retryDo oracle 3 0).2.map trimChars).map removeThinkTags = Except.ok w := hw
    cases hr : (retryDo oracle 3 0).2 with
    | error e =>
      rw [hr] at hw2
      exact absurd hw2 (by simp [Except.map])
    | ok t =>
      rw [hr] at hw2
      simp only [Except.map] at hw2
      refine ⟨t, hspec.2 t hr, ?_⟩
      exact ((Except.ok.injEq _ _).mp hw2).symm

/-- C5 counterexample: on the spec's example attempt pattern the value
actually returned is `"Hello  World"` (two spaces survive between the words),
not the claimed `"Hello World"`. -/
theorem claim5_retry_and_strip_counterexample :
    (generateWithRetry c5Oracle).2.map removeThinkTags =
      Except.ok "Hello  World".toList ∧
    (generateWithRetry c5Oracle).2.map removeThinkTags ≠
      Except.ok "Hello World".toList := by
  constructor
  · rfl
  · intro h
    have hlists := (Except.ok.injEq _ _).mp ((rfl :
      (generateWithRetry c5Oracle).2.map removeThinkTags =
        Except.ok "Hello  World".toList) ▸ h)
    exact absurd hlists (by decide)

/-- Concrete run of the amended C5 theorem on the example oracle. -/
theorem claim5_retry_and_strip_witness :
    ∃ t, c5Oracle ((generateWithRetry c5Oracle).1 - 1) = Except.ok t ∧
      "Hello  World".toList = removeThinkTags (trimChars t) :=
  (claim5_retry_and_strip_amended.1 c5Oracle).2 "Hello  World".toList (by rfl)

/-! ## Movie-file handling in photo description and the describe-photos job -/

/-- C6 counterexample: a photo of type `mp4` makes `GeneratePhotoDescription`
return a plain error value (not a non-error skip signal), and the
describe-photos job records that photo in `photo_errors` with
`total_errors = 1` — it is counted as a failure. -/
theorem claim6_movie_skip_counterexample :
    GeneratePhotoDescription (Photo.mk "p9" "Clip" "2024-01-01" none "mp4" none)
        (Except.ok (SizeVariant.mk "p9" 2 "x/clip.mp4"))
        (fun _ => Except.ok []) (fun _ => Except.error "oracle unused") =
      Except.error "skipping movie file (type: mp4, path: x/clip.mp4)" ∧
    handleDescribePhotos (Except.ok [Photo.mk "p9" "Clip" "2024-01-01" none "mp4" none])
        (fun p => (GeneratePhotoDescription p
          (Except.ok (SizeVariant.mk "p9" 2 "x/clip.mp4"))
          (fun _ => Except.ok []) (fun _ => Except.error "oracle unused")).map
            (fun l => String.mk l))
        (fun _ _ => Except.ok ()) =
      [Event.progress "photos" 1 1 "Processing photo: Clip",
       Event.complete "Described 0 photos"
         (some (ErrorSummary.mk
           ["Photo p9 (Clip): skipping movie file (type: mp4, path: x/clip.mp4)"] [] 1))] := by
  constructor
  · rfl
  · rfl

/-- C6 (amended): for every photo whose declared type or best variant path
extension matches the movie set, `GeneratePhotoDescription` returns the error
`skipping movie file ...` without consulting the image fetcher or the
inference client (so nothing is retried), and a describe-photos job over such
a photo records it in the complete event's `photo_errors` — counted as a
failure, not as a success and not silently skipped. -/
theorem claim6_movie_skip_amended (photo : Photo) (variant : SizeVariant)
    (h : isMovieFile photo variant = true) :
    (∀ fetch oracle, GeneratePhotoDescription photo (Except.ok variant) fetch oracle =
        Except.error ("skipping movie file (type: " ++ photo.typ ++ ", path: " ++
          variant.shortPath ++ ")")) ∧
    (∀ fetch oracle persist,
      handleDescribePhotos (Except.ok [photo])
        (fun p => (GeneratePhotoDescription p (Except.ok variant) fetch oracle).map
          (fun l => String.mk l))
        persist =
      [Event.progress "photos" 1 1 ("Processing photo: " ++ photo.title),
       Event.complete "Described 0 photos"
         (some (ErrorSummary.mk
           ["Photo " ++ photo.id ++ " (" ++ photo.title ++ "): " ++
             ("skipping movie file (type: " ++ photo.typ ++ ", path: " ++
               variant.shortPath ++ ")")] [] 1))]) := by
  have hskip : ∀ (fetch : SizeVariant → Except String (List Char))
      (oracle : Nat → Except String (List Char)),
      GeneratePhotoDescription photo (Except.ok variant) fetch oracle =
        Except.error ("skipping movie file (type: " ++ photo.typ ++ ", path: " ++
          variant.shortPath ++ ")") := by
    intro fetch oracle
    simp only [GeneratePhotoDescription]
    rw [if_pos h]
  constructor
  · exact hskip
  · intro fetch oracle persist
    have hmap : (GeneratePhotoDescription photo (Except.ok variant) fetch oracle).map
        (fun l => String.mk l) =
        Except.error ("skipping movie file (type: " ++ photo.typ ++ ", path: " ++
          variant.shortPath ++ ")") := by
      rw [hskip fetch oracle]
      rfl
    simp only [handleDescribePhotos, describePhotosLoop, hmap, List.length_cons,
      List.length_nil, List.nil_append, Nat.zero_add, List.singleton_append,
      Nat.sub_self]
    rfl

/-- Concrete run of the amended C6 theorem: an `avi`-typed photo is skipped
with an error before any inference attempt. -/
theorem claim6_movie_skip_witness :
    GeneratePhotoDescription (Photo.mk "p8" "Clip2" "2024-01-01" none "avi" none)
        (Except.ok (SizeVariant.mk "p8" 2 "y/clip2.jpg"))
        (fun _ => Except.ok []) (fun _ => Except.error "service down") =
      Except.error "skipping movie file (type: avi, path: y/clip2.jpg)" :=
  (claim6_movie_skip_amended (Photo.mk "p8" "Clip2" "2024-01-01" none "avi" none)
    (SizeVariant.mk "p8" 2 "y/clip2.jpg") (by decide)).1 _ _

/-! ## Batch jobs: per-item failures never abort, event-stream shape -/

/-- Whether an event is a progress update. -/
def isProgressEvent : Event → Bool
  | Event.progress _ _ _ _ => true
  | _ => false

/-- The describe-photos loop emits exactly one progress event per pool item,
whatever the per-item outcomes. -/
theorem describePhotosLoop_shape (describe : Photo → Except String String)
    (persist : Photo → String → Except String Unit) (total : Nat) :
    ∀ (photos : List Photo) (i : Nat) (errs : List String),
      (describePhotosLoop describe persist total photos i errs).1.length = photos.length ∧
      ∀ e ∈ (describePhotosLoop describe persist total photos i errs).1,
        isProgressEvent e = true := by
  intro photos
  induction photos with
  | nil =>
    intro i errs
    refine ⟨rfl, ?_⟩
    intro e he
    simp [describePhotosLoop] at he
  | cons photo rest ih =>
    intro i errs
    cases hd : describe photo with
    | error e =>
      simp only [describePhotosLoop, hd]
      refine ⟨by simp [(ih (i + 1) _).1], ?_⟩
      intro ev hev
      rcases List.mem_cons.mp hev with h | h
      · subst h; rfl
      · exact (ih (i + 1) _).2 ev h
    | ok desc =>
      cases hp : persist photo desc with
      | error e =>
        simp only [describePhotosLoop, hd, hp]
        refine ⟨by simp [(ih (i + 1) _).1], ?_⟩
        intro ev hev
        rcases List.mem_cons.mp hev with h | h
        · subst h; rfl
        · exact (ih (i + 1) _).2 ev h
      | ok u =>
        simp only [describePhotosLoop, hd, hp]
        refine ⟨by simp [(ih (i + 1) _).1], ?_⟩
        intro ev hev
        rcases List.mem_cons.mp hev with h | h
        · subst h; rfl
        · exact (ih (i + 1) _).2 ev h

/-- The shared album loop emits exactly one progress event per pool item,
whatever the per-item outcomes. -/
theorem describeAlbumsLoop_shape (getPhotos : Album → Except String (List Photo))
    (describe : Album → List Photo → Except String String)
    (persist : Album → String → Except String Unit) (total : Nat) :
    ∀ (albums : List Album) (i : Nat) (errs : List String),
      (describeAlbumsLoop getPhotos describe persist total albums i errs).1.length =
        albums.length ∧
      ∀ e ∈ (describeAlbumsLoop getPhotos describe persist total albums i errs).1,
        isProgressEvent e = true := by
  intro albums
  induction albums with
  | nil =>
    intro i errs
    refine ⟨rfl, ?_⟩
    intro e he
    simp [describeAlbumsLoop] at he
  | cons album rest ih =>
    intro i errs
    have step : ∀ (evs : List Event) (tailErrs : List String)
        (htail : (evs, tailErrs) = describeAlbumsLoop getPhotos describe persist total rest
          (i + 1) tailErrs) , True := fun _ _ _ => trivial
    cases hg : getPhotos album with
    | error e =>
      simp only [describeAlbumsLoop, hg]
      refine ⟨by simp [(ih (i + 1) _).1], ?_⟩
      intro ev hev
      rcases List.mem_cons.mp hev with h | h
      · subst h; rfl
      · exact (ih (i + 1) _).2 ev h
    | ok albumPhotos =>
      by_cases hlen : albumPhotos.length = 0
      · simp only [describeAlbumsLoop, hg, if_pos hlen]
        refine ⟨by simp [(ih (i + 1) _).1], ?_⟩
        intro ev hev
        rcases List.mem_cons.mp hev with h | h
        · subst h; rfl
        · exact (ih (i + 1) _).2 ev h
      · cases hd : describe album albumPhotos with
        | error e =>
          simp only [describeAlbumsLoop, hg, if_neg hlen, hd]
          refine ⟨by simp [(ih (i + 1) _).1], ?_⟩
          intro ev hev
          rcases List.mem_cons.mp hev with h | h
          · subst h; rfl
          · exact (ih (i + 1) _).2 ev h
        | ok desc =>
          cases hp : persist album desc with
          | error e =>
            simp only [describeAlbumsLoop, hg, if_neg hlen, hd, hp]
            refine ⟨by simp [(ih (i + 1) _).1], ?_⟩
            intro ev hev
            rcases List.mem_cons.mp hev with h | h
            · subst h; rfl
            · exact (ih (i + 1) _).2 ev h
          | ok u =>
            simp only [describeAlbumsLoop, hg, if_neg hlen, hd, hp]
            refine ⟨by simp [(ih (i + 1) _).1], ?_⟩
            intro ev hev
            rcases List.mem_cons.mp hev with h | h
            · subst h; rfl
            · exact (ih (i + 1) _).2 ev h

/-- The rescan photo stage emits exactly one progress event per pool item and
advances the running counter by the pool size. -/
theorem rescanPhotoLoop_shape (describe : Photo → Except String String)
    (persist : Photo → String → Except String Unit) (total : Nat) :
    ∀ (photos : List Photo) (current : Nat),
      (rescanPhotoLoop describe persist total photos current).1.length = photos.length ∧
      ∀ e ∈ (rescanPhotoLoop describe persist total photos current).1,
        isProgressEvent e = true := by
  intro photos
  induction photos with
  | nil =>
    intro current
    refine ⟨rfl, ?_⟩
    intro e he
    simp [rescanPhotoLoop] at he
  | cons photo rest ih =>
    intro current
    have hsplit : (rescanPhotoLoop describe persist total (photo :: rest) current).1 =
        Event.progress "photos" (current + 1) total ("Processing photo: " ++ photo.title) ::
          (rescanPhotoLoop describe persist total rest (current + 1)).1 := by
      simp only [rescanPhotoLoop]
      cases describe photo with
      | error e => rfl
      | ok d =>
        dsimp only
        cases persist photo d with
        | error e => rfl
        | ok u => rfl
    rw [hsplit]
    refine ⟨by simp [(ih (current + 1)).1], ?_⟩
    intro ev hev
    rcases List.mem_cons.mp hev with h | h
    · subst h; rfl
    · exact (ih (current + 1)).2 ev h

/-- The rescan album stage emits exactly one progress event per pool item. -/
theorem rescanAlbumLoop_shape (getPhotos : Album → Except String (List Photo))
    (describe : Album → List Photo → Except String String)
    (persist : Album → String → Except String Unit) (total : Nat) :
    ∀ (albums : List Album) (current : Nat),
      (rescanAlbumLoop getPhotos describe persist total albums current).1.length =
        albums.length ∧
      ∀ e ∈ (rescanAlbumLoop getPhotos describe persist total albums current).1,
        isProgressEvent e = true := by
  intro albums
  induction albums with
  | nil =>
    intro current
    refine ⟨rfl, ?_⟩
    intro e he
    simp [rescanAlbumLoop] at he
  | cons album rest ih =>
    intro current
    have hsplit : (rescanAlbumLoop getPhotos describe persist total (album :: rest) current).1 =
        Event.progress "albums" (current + 1) total
            ("Regenerating album description: " ++ album.id) ::
          (rescanAlbumLoop getPhotos describe persist total rest (current + 1)).1 := by
      simp only [rescanAlbumLoop]
      cases getPhotos album with
      | error e => rfl
      | ok albumPhotos =>
        dsimp only
        by_cases hlen : albumPhotos.length = 0
        · rw [if_pos hlen]
        · rw [if_neg hlen]
          cases describe album albumPhotos with
          | error e => rfl
          | ok d =>
            dsimp only
            cases persist album d with
            | error e => rfl
            | ok u => rfl
    rw [hsplit]
    refine ⟨by simp [(ih (current + 1)).1], ?_⟩
    intro ev hev
    rcases List.mem_cons.mp hev with h | h
    · subst h; rfl
    · exact (ih (current + 1)).2 ev h

/-- C7 (amended): for the describe-photos, describe-all-albums and
retry-album-failures jobs, no per-item failure aborts the job — every pool
item yields its progress event — and the terminal complete event carries the
processed count and the accumulated error lists partitioned into photo and
album errors.  The full-rescan job likewise processes every item regardless
of per-item failures, but its per-item failures are only logged, and its
terminal complete event carries just the fixed message `"Rescan complete"`
with no counts and no error lists. -/
theorem claim7_jobs_amended :
    (∀ (photos : List Photo) (describe : Photo → Except String String)
        (persist : Photo → String → Except String Unit), photos ≠ [] →
      ∃ evs errs,
        handleDescribePhotos (Except.ok photos) describe persist =
          evs ++ [Event.complete
            ("Described " ++ toString (photos.length - errs.length) ++ " photos")
            (some (ErrorSummary.mk errs [] errs.length))] ∧
        evs.length = photos.length ∧ ∀ e ∈ evs, isProgressEvent e = true) ∧
    (∀ (albums : List Album) (getPhotos : Album → Except String (List Photo))
        (describe : Album → List Photo → Except String String)
        (persist : Album → String → Except String Unit), albums ≠ [] →
      ∃ evs errs,
        handleDescribeAllAlbums (Except.ok albums) getPhotos describe persist =
          evs ++ [Event.complete
            ("Described " ++ toString (albums.length - errs.length) ++ " albums")
            (some (ErrorSummary.mk [] errs errs.length))] ∧
        evs.length = albums.length ∧ ∀ e ∈ evs, isProgressEvent e = true) ∧
    (∀ (albums : List Album) (getPhotos : Album → Except String (List Photo))
        (describe : Album → List Photo → Except String String)
        (persist : Album → String → Except String Unit), albums ≠ [] →
      ∃ evs errs,
        handleRetryAlbumFailures (Except.ok albums) getPhotos describe persist =
          evs ++ [Event.complete
            ("Described " ++ toString (albums.length - errs.length) ++ " albums")
            (some (ErrorSummary.mk [] errs errs.length))] ∧
        evs.length = albums.length ∧ ∀ e ∈ evs, isProgressEvent e = true) ∧
    (∀ (photos : List Photo) (albums : List Album)
        (describeP : Photo → Except String String)
        (persistP : Photo → String → Except String Unit)
        (getPhotos : Album → Except String (List Photo))
        (describeA : Album → List Photo → Except String String)
        (persistA : Album → String → Except String Unit),
      photos.length + albums.length ≠ 0 →
      ∃ evs,
        handleRescan (Except.ok photos) (Except.ok albums)
            describeP persistP getPhotos describeA persistA =
          evs ++ [Event.complete "Rescan complete" none] ∧
        evs.length = photos.length + albums.length ∧
        ∀ e ∈ evs, isProgressEvent e = true) := by
  refine ⟨?_, ?_, ?_, ?_⟩
  · intro photos describe persist hne
    refine ⟨(describePhotosLoop describe persist photos.length photos 0 []).1,
      (describePhotosLoop describe persist photos.length photos 0 []).2, ?_, ?_, ?_⟩
    · simp only [handleDescribePhotos,
        if_neg (fun h => hne (List.length_eq_zero.mp h))]
    · exact (describePhotosLoop_shape describe persist photos.length photos 0 []).1
    · exact (describePhotosLoop_shape describe persist photos.length photos 0 []).2
  · intro albums getPhotos describe persist hne
    refine ⟨(describeAlbumsLoop getPhotos describe persist albums.length albums 0 []).1,
      (describeAlbumsLoop getPhotos describe persist albums.length albums 0 []).2, ?_, ?_, ?_⟩
    · simp only [handleDescribeAllAlbums,
        if_neg (fun h => hne (List.length_eq_zero.mp h))]
    · exact (describeAlbumsLoop_shape getPhotos describe persist albums.length albums 0 []).1
    · exact (describeAlbumsLoop_shape getPhotos describe persist albums.length albums 0 []).2
  · intro albums getPhotos describe persist hne
    refine ⟨(describeAlbumsLoop getPhotos describe persist albums.length albums 0 []).1,
      (describeAlbumsLoop getPhotos describe persist albums.length albums 0 []).2, ?_, ?_, ?_⟩
    · simp only [handleRetryAlbumFailures,
        if_neg (fun h => hne (List.length_eq_zero.mp h))]
    · exact (describeAlbumsLoop_shape getPhotos describe persist albums.length albums 0 []).1
    · exact (describeAlbumsLoop_shape getPhotos describe persist albums.length albums 0 []).2
  · intro photos albums describeP persistP getPhotos describeA persistA hne
    have hp := rescanPhotoLoop_shape describeP persistP (photos.length + albums.length) photos 0
    have ha := rescanAlbumLoop_shape getPhotos describeA persistA
      (photos.length + albums.length) albums
      (rescanPhotoLoop describeP persistP (photos.length + albums.length) photos 0).2
    refine ⟨(rescanPhotoLoop describeP persistP (photos.length + albums.length) photos 0).1 ++
      (rescanAlbumLoop getPhotos describeA persistA (photos.length + albums.length) albums
        (rescanPhotoLoop describeP persistP (photos.length + albums.length) photos 0).2).1,
      ?_, ?_, ?_⟩
    · simp only [handleRescan, if_neg hne, List.append_assoc]
    · simp [hp.1, ha.1]
    · intro e he
      rcases List.mem_append.mp he with h | h
      · exact hp.2 e h
      · exact ha.2 e h

/-- C7 counterexample: a full rescan whose single photo fails to describe
still ends with a complete event whose payload is only the message
`"Rescan complete"` — no processed counts and no error lists are carried, and
the failure is recorded nowhere in the stream. -/
theorem claim7_jobs_counterexample :
    handleRescan (Except.ok [Photo.mk "p1" "P" "2024-01-01" none "jpg" none])
        (Except.ok [])
        (fun _ => Except.error "inference failed") (fun _ _ => Except.ok ())
        (fun _ => Except.ok []) (fun _ _ => Except.error "unused")
        (fun _ _ => Except.ok ()) =
      [Event.progress "photos" 1 1 "Processing photo: P",
       Event.complete "Rescan complete" none] := by
  rfl

/-- Concrete run of the amended C7 theorem: a describe-photos job over one
failing photo. -/
theorem claim7_jobs_witness :
    ∃ evs errs,
      handleDescribePhotos
          (Except.ok [Photo.mk "p1" "P" "2024-01-01" none "jpg" none])
          (fun _ => Except.error "boom") (fun _ _ => Except.ok ()) =
        evs ++ [Event.complete
          ("Described " ++
            toString ([Photo.mk "p1" "P" "2024-01-01" none "jpg" none].length - errs.length) ++
            " photos")
          (some (ErrorSummary.mk errs [] errs.length))] ∧
      evs.length = [Photo.mk "p1" "P" "2024-01-01" none "jpg" none].length ∧
      ∀ e ∈ evs, isProgressEvent e = true :=
  claim7_jobs_amended.1 [Photo.mk "p1" "P" "2024-01-01" none "jpg" none]
    (fun _ => Except.error "boom") (fun _ _ => Except.ok ()) (by simp)

/-! ## Cache hits bypass the suggestion engine -/

/-- C8: when the requested photo id is already in the suggestion cache, the
handler performs zero suggestion-engine (inference) invocations, and its
response is identical across any two runs that differ only in the inference
service's behaviour. -/
theorem claim8_cache_hit_no_inference (cacheMap : String → Option (List String))
    (photoID : String) (albumsE : Except String (List Album))
    (photosE : Except String (List Photo)) (sugg : List String)
    (hhit : cacheMap photoID = some sugg) :
    (∀ suggest, (handlePhotoSuggestions cacheMap photoID albumsE photosE suggest).2 = 0) ∧
    (∀ s1 s2, handlePhotoSuggestions cacheMap photoID albumsE photosE s1 =
      handlePhotoSuggestions cacheMap photoID albumsE photosE s2) := by
  by_cases hpid : photoID = ""
  · constructor
    · intro suggest
      simp [handlePhotoSuggestions, hpid]
    · intro s1 s2
      simp [handlePhotoSuggestions, hpid]
  · constructor
    · intro suggest
      simp [handlePhotoSuggestions, hpid, hhit]
    · intro s1 s2
      simp [handlePhotoSuggestions, hpid, hhit]

/-- Concrete run of the C8 theorem: a cached photo id yields zero suggestion
engine calls, and a failing inference service produces the same response as a
working one. -/
theorem claim8_cache_hit_no_inference_witness :
    ((handlePhotoSuggestions (fun pid => if pid == "p1" then some ["A"] else none) "p1"
        (Except.ok []) (Except.ok []) (fun _ _ => Except.error "inference down")).2 = 0) ∧
    handlePhotoSuggestions (fun pid => if pid == "p1" then some ["A"] else none) "p1"
        (Except.ok []) (Except.ok []) (fun _ _ => Except.error "inference down") =
      handlePhotoSuggestions (fun pid => if pid == "p1" then some ["A"] else none) "p1"
        (Except.ok []) (Except.ok []) (fun _ _ => Except.ok ["B"]) :=
  ⟨(claim8_cache_hit_no_inference (fun pid => if pid == "p1" then some ["A"] else none)
      "p1" (Except.ok []) (Except.ok []) ["A"] (by rfl)).1 _,
   (claim8_cache_hit_no_inference (fun pid => if pid == "p1" then some ["A"] else none)
      "p1" (Except.ok []) (Except.ok []) ["A"] (by rfl)).2 _ _⟩

/-! ## Candidate pools select only photos lacking a description -/

/-- C9: both describe-missing-photos candidate queries return only photos
whose AI description is NULL; consequently a photo holding a non-null
description is never selected (and hence never re-described) by those job
paths. -/
theorem claim9_pools_only_null (db : DBState) :
    (∀ p ∈ GetPhotosWithoutAIDescription db, p.aiDescription = none) ∧
    (∀ p ∈ GetAllPhotosWithoutAIDescription db, p.aiDescription = none) ∧
    (∀ p ∈ db.photos, p.aiDescription ≠ none →
      p ∉ GetPhotosWithoutAIDescription db ∧ p ∉ GetAllPhotosWithoutAIDescription db) := by
  refine ⟨?_, ?_, ?_⟩
  · intro p hp
    exact Option.isNone_iff_eq_none.mp (List.mem_filter.mp hp).2
  · intro p hp
    have hpred := (List.mem_filter.mp hp).2
    simp only [Bool.and_eq_true] at hpred
    exact Option.isNone_iff_eq_none.mp hpred.1
  · intro p _ hne
    constructor
    · intro hmem
      exact hne (Option.isNone_iff_eq_none.mp (List.mem_filter.mp hmem).2)
    · intro hmem
      have hpred := (List.mem_filter.mp hmem).2
      simp only [Bool.and_eq_true] at hpred
      exact hne (Option.isNone_iff_eq_none.mp hpred.1)

/-- Concrete run of the C9 theorem: an already-described photo is selected by
neither candidate query. -/
theorem claim9_pools_only_null_witness :
    Photo.mk "pd" "D" "2024-01-01" none "jpg" (some "desc") ∉
      GetPhotosWithoutAIDescription (DBState.mk
        [Photo.mk "pn" "N" "2024-01-01" none "jpg" none,
         Photo.mk "pd" "D" "2024-01-01" none "jpg" (some "desc")] [] []) ∧
    Photo.mk "pd" "D" "2024-01-01" none "jpg" (some "desc") ∉
      GetAllPhotosWithoutAIDescription (DBState.mk
        [Photo.mk "pn" "N" "2024-01-01" none "jpg" none,
         Photo.mk "pd" "D" "2024-01-01" none "jpg" (some "desc")] [] []) :=
  (claim9_pools_only_null (DBState.mk
      [Photo.mk "pn" "N" "2024-01-01" none "jpg" none,
       Photo.mk "pd" "D" "2024-01-01" none "jpg" (some "desc")] [] [])).2.2
    (Photo.mk "pd" "D" "2024-01-01" none "jpg" (some "desc")) (by decide) (by decide)

/-! ## The suggestions response: bounded, current, stale ids dropped -/

/-- The response-building loop is filterMap-then-take: starting below the
quota it renders, in order, the suggestion ids still present in the album
map, up to the remaining quota. -/
theorem suggestionResponseLoop_eq (find : String → Option Album) :
    ∀ (ids : List String) (acc : List AlbumResponse), acc.length < 3 →
      suggestionResponseLoop find ids acc =
        acc ++ ((ids.filterMap find).map renderAlbum).take (3 - acc.length) := by
  intro ids
  induction ids with
  | nil => intro acc _; simp [suggestionResponseLoop]
  | cons albumID rest ih =>
    intro acc hacc
    cases hf : find albumID with
    | none =>
      simp only [suggestionResponseLoop, hf]
      rw [if_neg (by omega)]
      rw [ih acc hacc]
      simp [List.filterMap_cons, hf]
    | some album =>
      simp only [suggestionResponseLoop, hf]
      by_cases hfull : 3 ≤ (acc ++ [renderAlbum album]).length
      · rw [if_pos hfull]
        simp only [List.length_append, List.length_cons, List.length_nil] at hfull
        have h1 : 3 - acc.length = 1 := by omega
        simp [List.filterMap_cons, hf, h1]
      · rw [if_neg hfull]
        simp only [List.length_append, List.length_cons, List.length_nil] at hfull
        rw [ih (acc ++ [renderAlbum album]) (by simp; omega)]
        have h3 : 3 - acc.length = (3 - (acc.length + 1)) + 1 := by omega
        simp only [List.length_append, List.length_cons, List.length_nil,
          List.filterMap_cons, hf, List.map_cons]
        rw [h3, List.take_succ_cons, List.append_assoc]
        simp

/-- A hit in the handler's `albumMap` names an album of the list it was built
from (a later duplicate id overwrites an earlier one, as a Go map does). -/
theorem albumMapFind_mem_aux :
    ∀ (albums : List Album) (acc : Option Album) (albumID : String) (a : Album),
      albums.foldl (fun acc b => if b.id == albumID then some b else acc) acc = some a →
      (a ∈ albums ∧ a.id = albumID) ∨ acc = some a := by
  intro albums
  induction albums with
  | nil => intro acc albumID a h; exact Or.inr h
  | cons b bs ih =>
    intro acc albumID a h
    rw [List.foldl_cons] at h
    rcases ih _ albumID a h with ⟨hmem, hid⟩ | hacc
    · exact Or.inl ⟨List.mem_cons.mpr (Or.inr hmem), hid⟩
    · by_cases hb : (b.id == albumID) = true
      · rw [if_pos hb] at hacc
        have hba : b = a := (Option.some.injEq _ _).mp hacc
        subst hba
        exact Or.inl ⟨List.mem_cons_self _ _, by simpa using hb⟩
      · rw [if_neg hb] at hacc
        exact Or.inr hacc

/-- Specialisation of `albumMapFind_mem_aux` to the empty initial map. -/
theorem albumMapFind_mem (albums : List Album) (albumID : String) (a : Album)
    (h : albumMapFind albums albumID = some a) : a ∈ albums ∧ a.id = albumID := by
  rcases albumMapFind_mem_aux albums none albumID a h with hgood | hbad
  · exact hgood
  · exact absurd hbad (by simp)

/-- Shape of every successful response of the shared response-rendering tail:
the cached or generated ids are filtered against the current album map,
rendered in order, and truncated to three. -/
theorem respondSuggestions_ok (albums : List Album) (sugg : List String)
    (resp : List AlbumResponse)
    (h : respondSuggestions (Except.ok albums) sugg = HttpOutcome.okResp resp) :
    resp = ((sugg.filterMap (albumMapFind albums)).map renderAlbum).take 3 ∧
    resp.length ≤ 3 ∧ ∀ ar ∈ resp, ∃ a ∈ albums, a.id = ar.id := by
  simp only [respondSuggestions] at h
  have hresp : resp = suggestionResponseLoop (albumMapFind albums) sugg [] :=
    ((HttpOutcome.okResp.injEq _ _).mp h).symm
  rw [suggestionResponseLoop_eq _ sugg [] (by simp)] at hresp
  simp only [List.nil_append, List.length_nil, Nat.sub_zero] at hresp
  refine ⟨hresp, ?_, ?_⟩
  · rw [hresp]
    exact List.length_take_le _ _
  · intro ar har
    rw [hresp] at har
    have har2 := List.mem_of_mem_take har
    rcases List.mem_map.mp har2 with ⟨album, halbmem, hrender⟩
    rcases List.mem_filterMap.mp halbmem with ⟨i, _, hfind⟩
    rcases albumMapFind_mem albums i album hfind with ⟨hmem, _⟩
    exact ⟨album, hmem, by rw [← hrender]; rfl⟩

/-- C10: every successfully answered suggestions request returns at most
three entries, every returned entry names an album of the repository's
current top-level album set (re-read at response time), and on a cache hit
the response is exactly the cached ids filtered against that set — cached
ids that no longer name an existing top-level album are silently dropped. -/
theorem claim10_response_bounded_and_current (cacheMap : String → Option (List String))
    (photoID : String) (albums : List Album) (photosE : Except String (List Photo))
    (suggest : Photo → List Album → Except String (List String))
    (resp : List AlbumResponse)
    (hok : (handlePhotoSuggestions cacheMap photoID (Except.ok albums) photosE suggest).1 =
      HttpOutcome.okResp resp) :
    resp.length ≤ 3 ∧ (∀ ar ∈ resp, ∃ a ∈ albums, a.id = ar.id) ∧
    ∀ sugg, cacheMap photoID = some sugg →
      resp = ((sugg.filterMap (albumMapFind albums)).map renderAlbum).take 3 := by
  by_cases hpid : photoID = ""
  · simp [handlePhotoSuggestions, hpid] at hok
  · simp only [handlePhotoSuggestions, if_neg hpid] at hok
    cases hc : cacheMap photoID with
    | some sugg =>
      rw [hc] at hok
      dsimp only at hok
      have hro := respondSuggestions_ok albums sugg resp hok
      refine ⟨hro.2.1, hro.2.2, ?_⟩
      intro sugg2 hc2
      have hss : sugg = sugg2 := (Option.some.injEq _ _).mp hc2
      subst hss
      exact hro.1
    | none =>
      rw [hc] at hok
      dsimp only at hok
      cases hpe : photosE with
      | error e =>
        rw [hpe] at hok
        exact absurd hok (by simp)
      | ok photos =>
        rw [hpe] at hok
        dsimp only at hok
        cases hfind : photos.find? (fun p => p.id == photoID) with
        | none =>
          rw [hfind] at hok
          exact absurd hok (by simp)
        | some target =>
          rw [hfind] at hok
          dsimp only at hok
          cases hs : suggest target albums with
          | error e =>
            rw [hs] at hok
            exact absurd hok (by simp)
          | ok sugg2 =>
            rw [hs] at hok
            dsimp only at hok
            have hro := respondSuggestions_ok albums sugg2 resp hok
            refine ⟨hro.2.1, hro.2.2, ?_⟩
            intro sugg3 hc3
            exact absurd hc3 (by simp)

/-- Concrete run of the C10 theorem: a cached list holding the stale id
`"gone"` is filtered down to the one album that still exists. -/
theorem claim10_response_bounded_and_current_witness :
    ([AlbumResponse.mk "A" "A" "alpha"] : List AlbumResponse).length ≤ 3 ∧
    (∀ ar ∈ ([AlbumResponse.mk "A" "A" "alpha"] : List AlbumResponse),
      ∃ a ∈ [Album.mk "A" "Alpha" none (some "alpha")], a.id = ar.id) ∧
    ∀ sugg, (fun pid => if pid == "p1" then some ["gone", "A"] else none) "p1" = some sugg →
      [AlbumResponse.mk "A" "A" "alpha"] =
        ((sugg.filterMap (albumMapFind [Album.mk "A" "Alpha" none (some "alpha")])).map
          renderAlbum).take 3 :=
  claim10_response_bounded_and_current
    (fun pid => if pid == "p1" then some ["gone", "A"] else none) "p1"
    [Album.mk "A" "Alpha" none (some "alpha")] (Except.ok [])
    (fun _ _ => Except.error "unused") [AlbumResponse.mk "A" "A" "alpha"] (by rfl)

end Lychee
